import Mathlib

/-
Verification of the dual-authority approval manager
(scripts/amcos_approval_manager.py) of the ai-maestro-chief-of-staff
repository.

The Python module manipulates loosely-typed dictionaries (JSON-like values),
a local YAML mirror store with a "pending" and a "completed" shelf, and an
HTTP client with a mutable liveness flag.  We embed:
  - Python dict values as the inductive type `Val` and dictionaries as
    ordered association lists (`Dict`), with Python's dict get/set/update
    semantics (set replaces the value at the first occurrence of the key,
    keeping its position; otherwise it appends);
  - the stdlib-only YAML serializer (`dict_to_yaml`) and parser
    (`yaml_to_dict`) character-faithfully (the unused `float()` fallback of
    `parse_yaml_value` is not modelled: no record in this development
    carries floats);
  - the merge policy `merge_api_and_yaml`;
  - the mirror store as two shelves mapping request ids to the serialized
    file contents, and the state effect of each lifecycle operation;
  - the HTTP client's `_request` as a function of the abstract network
    outcome, returning the parsed body (or `none`) together with the new
    value of the `available` liveness flag;
  - the `wait_for_decision` poll loop, with time advancing by the poll
    interval at each `time.sleep`, instrumented with an event trace.
-/

/-- Python values as stored in the request dictionaries (JSON-like). -/
inductive Val where
  | vnull
  | vbool (b : Bool)
  | vint (n : Int)
  | vstr (s : String)
  | vlist (xs : List Val)
  | vdict (fields : List (String × Val))
deriving Repr

/-- A Python dictionary with string keys: an ordered association list. -/
abbrev Dict := List (String × Val)

/-- A governance request record (`dict[str, Any]` in the source). -/
abbrev Rec := Dict

/-- Python `d.get(k)`: value at the first occurrence of the key, else `none`. -/
def dictGet {α : Type} : List (String × α) → String → Option α
  | [], _ => none
  | (k, v) :: rest, key => if k = key then some v else dictGet rest key

/-- Python `d[k] = v`: replace the value at the first occurrence of the key
(keeping its position), else append the pair at the end. -/
def dictSet {α : Type} : List (String × α) → String → α → List (String × α)
  | [], key, val => [(key, val)]
  | (k, v) :: rest, key, val =>
      if k = key then (k, val) :: rest else (k, v) :: dictSet rest key val

/-- Removal of a key (used to model `Path.rename` taking a file away from
the pending directory). -/
def dictRemove {α : Type} (l : List (String × α)) (key : String) :
    List (String × α) :=
  l.filter (fun p => p.1 ≠ key)

/-- Python `d.update(d2)`: set every pair of `d2` in order. -/
def dictUpdate (d : Rec) (upd : Rec) : Rec :=
  upd.foldl (fun acc kv => dictSet acc kv.1 kv.2) d

/-- The extended status values of the GovernanceRequest state machine. -/
def VALID_STATUSES : List String :=
  ["pending", "local-approved", "remote-approved", "dual-approved",
   "executed", "rejected"]

/-- Terminal statuses: no further transitions possible. -/
def TERMINAL_STATUSES : List String := ["executed", "rejected"]

/-- Statuses that count as approved for backward compatibility. -/
def APPROVED_STATUSES : List String :=
  ["local-approved", "remote-approved", "dual-approved", "executed"]

/-- The characters Python `str.strip()` removes. -/
def isSpaceChar (c : Char) : Bool :=
  c = ' ' || c = '\t' || c = '\n' || c = '\r' || c = '\x0b' || c = '\x0c'

/-- Build a string from its characters. -/
def charsStr (cs : List Char) : String := ⟨cs⟩

/-- Python `s.lstrip()`.  (Defined, like the other string helpers below, by
structural recursion over the character list, with the same semantics as
the Python method on the inputs the source produces.) -/
def pyLstrip (s : String) : String := charsStr (s.data.dropWhile isSpaceChar)

/-- Python `s.strip()`. -/
def pyStrip (s : String) : String :=
  charsStr
    (((s.data.dropWhile isSpaceChar).reverse.dropWhile isSpaceChar).reverse)

/-- Python `len(s)`. -/
def pyLen (s : String) : Nat := s.data.length

/-- Whether the first list is an initial segment of the second. -/
def charsBeginWith : List Char → List Char → Bool
  | [], _ => true
  | _ :: _, [] => false
  | p :: ps, c :: cs => p == c && charsBeginWith ps cs

/-- Python `s.startswith(pre)`. -/
def pyStartsWith (s pre : String) : Bool := charsBeginWith pre.data s.data

/-- Python `s.endswith(suf)`. -/
def pyEndsWith (s suf : String) : Bool :=
  charsBeginWith suf.data.reverse s.data.reverse

/-- Python `c in s` for a one-character pattern. -/
def pyContains (s : String) (c : Char) : Bool := s.data.contains c

/-- Python `s.lower()` (ASCII, as used on the YAML scalar keywords). -/
def pyLower (s : String) : String := charsStr (s.data.map Char.toLower)

/-- Accumulator loop of `pySplitChar`. -/
def splitCharAux (c : Char) : List Char → List Char → List String
  | [], acc => [charsStr acc.reverse]
  | x :: xs, acc =>
      if x = c then charsStr acc.reverse :: splitCharAux c xs []
      else splitCharAux c xs (x :: acc)

/-- Python `s.split(c)` for a one-character separator, empty parts kept. -/
def pySplitChar (s : String) (c : Char) : List String := splitCharAux c s.data []

/-- Python `sep.join(parts)`. -/
def strJoinSep (sep : String) : List String → String
  | [] => ""
  | [x] => x
  | x :: y :: rest => x ++ sep ++ strJoinSep sep (y :: rest)

/-- Python `s.replace(c, rep)` for a one-character pattern. -/
def pyReplaceChar (s : String) (c : Char) (rep : String) : String :=
  charsStr
    (s.data.foldr (fun x acc => if x = c then rep.data ++ acc else x :: acc) [])

/-- Python `s[1:-1]`. -/
def pyDropEnds (s : String) : String := charsStr ((s.data.drop 1).dropLast)

/-- Python `s[2:]`. -/
def pyDropTwo (s : String) : String := charsStr (s.data.drop 2)

/-- The numeric value of a decimal digit character. -/
def digitVal (c : Char) : Option Nat :=
  if 48 ≤ c.toNat && c.toNat ≤ 57 then some (c.toNat - 48) else none

/-- The value of a non-empty all-digit character list. -/
def digitsToNat : List Char → Option Nat
  | [] => none
  | cs =>
      cs.foldl
        (fun acc c =>
          match acc, digitVal c with
          | some a, some d => some (a * 10 + d)
          | _, _ => none)
        (some 0)

/-- Python `int(s)` restricted to an optional minus sign followed by
decimal digits (the exotic forms Python also accepts, such as embedded
underscores or a plus sign, never round-trip through the serializer and are
not modelled). -/
def pyToInt (s : String) : Option Int :=
  match s.data with
  | '-' :: rest => (digitsToNat rest).map (fun n => -(n : Int))
  | cs => (digitsToNat cs).map (fun n => (n : Int))

/-- Python truthiness of a value (`if yaml_data:` and `if not req_id:`). -/
def valTruthy : Val → Bool
  | .vnull => false
  | .vbool b => b
  | .vint n => n != 0
  | .vstr s => s ≠ ""
  | .vlist xs => !xs.isEmpty
  | .vdict fs => !fs.isEmpty

mutual

/-- Python `str(value)` on the values that can appear in a record. -/
def pyStr : Val → String
  | .vnull => "None"
  | .vbool true => "True"
  | .vbool false => "False"
  | .vint n => toString n
  | .vstr s => s
  | .vlist xs => "[" ++ pyReprList xs ++ "]"
  | .vdict fs => "\x7b" ++ pyReprFields fs ++ "\x7d"

/-- Python `repr(value)`, used by `str` on the elements of containers. -/
def pyRepr : Val → String
  | .vnull => "None"
  | .vbool true => "True"
  | .vbool false => "False"
  | .vint n => toString n
  | .vstr s => "\x27" ++ s ++ "\x27"
  | .vlist xs => "[" ++ pyReprList xs ++ "]"
  | .vdict fs => "\x7b" ++ pyReprFields fs ++ "\x7d"

/-- Comma-separated reprs of list elements. -/
def pyReprList : List Val → String
  | [] => ""
  | [x] => pyRepr x
  | x :: y :: rest => pyRepr x ++ ", " ++ pyReprList (y :: rest)

/-- Comma-separated reprs of dict entries. -/
def pyReprFields : List (String × Val) → String
  | [] => ""
  | [(k, v)] => "\x27" ++ k ++ "\x27: " ++ pyRepr v
  | (k, v) :: f :: rest =>
      "\x27" ++ k ++ "\x27: " ++ pyRepr v ++ ", " ++ pyReprFields (f :: rest)

end

/-- The characters that force a string value to be serialized quoted
(`any(c in value for c in [":", "#", ...])` in `dict_to_yaml`). -/
def hasSpecialChar (s : String) : Bool :=
  pyContains s ':' || pyContains s '#' || pyContains s '\x27' ||
  pyContains s '"' || pyContains s '[' || pyContains s ']' ||
  pyContains s '\x7b' || pyContains s '\x7d'

/-- The indentation prefix `"  " * indent`. -/
def indentPre : Nat → String
  | 0 => ""
  | n + 1 => "  " ++ indentPre n

mutual

/-- The `lines` accumulated by `dict_to_yaml(data, indent)`, one list
element per `lines.append` (nested blocks are single elements containing
newlines, exactly as in the source). -/
def yamlLinesRec (indent : Nat) : Rec → List String
  | [] => []
  | (key, value) :: rest =>
      (if pyStartsWith key "_" then [] else yamlLinesEntry indent key value) ++
      yamlLinesRec indent rest

/-- The lines emitted for one `key: value` entry of `dict_to_yaml`. -/
def yamlLinesEntry (indent : Nat) (key : String) : Val → List String
  | .vnull => [indentPre indent ++ key ++ ": null"]
  | .vbool b =>
      [indentPre indent ++ key ++ ": " ++ (if b then "true" else "false")]
  | .vint n => [indentPre indent ++ key ++ ": " ++ toString n]
  | .vstr s =>
      if pyContains s '\n' then
        (indentPre indent ++ key ++ ": |") ::
          (pySplitChar s '\n').map (fun line => indentPre indent ++ "  " ++ line)
      else if hasSpecialChar s then
        [indentPre indent ++ key ++ ": \"" ++ pyReplaceChar s '"' "\\\"" ++ "\""]
      else
        [indentPre indent ++ key ++ ": " ++ s]
  | .vlist [] => [indentPre indent ++ key ++ ": []"]
  | .vlist (x :: xs) =>
      (indentPre indent ++ key ++ ":") :: yamlLinesItems indent (x :: xs)
  | .vdict [] => [indentPre indent ++ key ++ ": \x7b\x7d"]
  | .vdict (f :: fs) =>
      (indentPre indent ++ key ++ ":") ::
        [strJoinSep "\n" (yamlLinesRec (indent + 1) (f :: fs))]

/-- The lines emitted for the items of a non-empty list value. -/
def yamlLinesItems (indent : Nat) : List Val → List String
  | [] => []
  | item :: rest =>
      (match item with
       | .vdict fs =>
           [indentPre indent ++ "  -",
            strJoinSep "\n" (yamlLinesRec (indent + 2) fs)]
       | v => [indentPre indent ++ "  - " ++ pyStr v]) ++
      yamlLinesItems indent rest

end

/-- The source's `dict_to_yaml(data, indent)`: serialize a record, skipping
keys that start with an underscore. -/
def dict_to_yaml (data : Rec) (indent : Nat := 0) : String :=
  strJoinSep "\n" (yamlLinesRec indent data)

/-- The source's `parse_yaml_value`.  The trailing `float()` attempt of the
source is not modelled (`Val` carries no floats; no record in this
development contains a float literal), so such values stay strings. -/
def parse_yaml_value (value : String) : Val :=
  if (pyStartsWith value "\"" && pyEndsWith value "\"") ||
     (pyStartsWith value "\x27" && pyEndsWith value "\x27") then
    .vstr (pyDropEnds value)
  else if pyLower value = "null" || value = "~" then .vnull
  else if pyLower value = "true" then .vbool true
  else if pyLower value = "false" then .vbool false
  else
    match pyToInt value with
    | some n => .vint n
    | none => .vstr value

/-- Python `len(line) - len(line.lstrip())`. -/
def lineIndent (line : String) : Nat :=
  (line.data.takeWhile isSpaceChar).length

/-- The mutable local state of the `yaml_to_dict` parsing loop. -/
structure PState where
  result : Rec
  currentIndent : Nat
  multilineKey : Option String
  multilineLines : List String
  listKey : Option String
  listItems : List Val
deriving Repr

/-- The initial parser state. -/
def initPState : PState := ⟨[], 0, none, [], none, []⟩

/-- Flush an in-progress list into the result
(`result[list_key] = list_items`). -/
def endListState (st : PState) : PState :=
  match st.listKey with
  | some lk =>
      { st with result := dictSet st.result lk (.vlist st.listItems),
                listKey := none, listItems := [] }
  | none => st

/-- The part of one `yaml_to_dict` loop iteration after the multiline
continuation check: list items, list termination, and `key: value` lines. -/
def yamlStepMain (st : PState) (line stripped : String) : PState :=
  if pyStartsWith stripped "- " then
    match st.listKey with
    | some _ =>
        { st with listItems :=
            st.listItems ++ [parse_yaml_value (pyStrip (pyDropTwo stripped))] }
    | none => st
  else
    let st := if st.listKey.isSome && !(pyStartsWith stripped "-") then
        endListState st else st
    if pyContains stripped ':' then
      let parts := pySplitChar stripped ':'
      let key := pyStrip (parts.headD "")
      let value_part := pyStrip (strJoinSep ":" parts.tail)
      if value_part = "" then
        { st with listKey := some key, listItems := [] }
      else if value_part = "|" then
        { st with multilineKey := some key, currentIndent := lineIndent line }
      else if value_part = "[]" then
        { st with result := dictSet st.result key (.vlist []) }
      else if value_part = "\x7b\x7d" then
        { st with result := dictSet st.result key (.vdict []) }
      else
        { st with result := dictSet st.result key (parse_yaml_value value_part) }
    else st

/-- One iteration of the `yaml_to_dict` loop on one line.  A line that ends
a multiline block falls through to normal processing of the same line,
exactly as in the source (which does not advance `i` in that branch before
the rest of the loop body runs). -/
def yamlStep (st : PState) (line : String) : PState :=
  let stripped := pyStrip line
  if stripped = "" || pyStartsWith stripped "#" then st
  else
    match st.multilineKey with
    | some mk =>
        if lineIndent line > st.currentIndent then
          { st with multilineLines := st.multilineLines ++ [stripped] }
        else
          yamlStepMain
            { st with
                result := dictSet st.result mk
                  (.vstr (strJoinSep "\n" st.multilineLines)),
                multilineKey := none, multilineLines := [] }
            line stripped
    | none => yamlStepMain st line stripped

/-- The source's `yaml_to_dict`: fold the line-by-line state machine over
the lines, then flush a pending list and a pending multiline value. -/
def yaml_to_dict (yaml_str : String) : Rec :=
  let st := (pySplitChar yaml_str '\n').foldl yamlStep initPState
  let st := endListState st
  match st.multilineKey with
  | some mk =>
      dictSet st.result mk (.vstr (strJoinSep "\n" st.multilineLines))
  | none => st.result

/-- The authoritative fields the API overwrites in `merge_api_and_yaml`. -/
def AUTHORITATIVE_KEYS : List String :=
  ["status", "decision", "decided_by", "decided_at", "decision_comment",
   "updated_at"]

/-- One iteration of the authoritative-field loop of `merge_api_and_yaml`:
`if key in api_data and api_data[key] is not None: result[key] = api_data[key]`. -/
def mergeAuthStep (api_data : Rec) (acc : Rec) (key : String) : Rec :=
  match dictGet api_data key with
  | some .vnull => acc
  | some v => dictSet acc key v
  | none => acc

/-- The source's `merge_api_and_yaml`: API state wins for the authoritative
fields, YAML fills in everything else. -/
def merge_api_and_yaml : Option Rec → Option Rec → Rec
  | none, none => []
  | none, some yaml_data => dictSet yaml_data "_source" (.vstr "local-only")
  | some api_data, none => dictSet api_data "_source" (.vstr "api-only")
  | some api_data, some yaml_data =>
      let result := AUTHORITATIVE_KEYS.foldl (mergeAuthStep api_data) yaml_data
      dictSet (dictSet result "api_synced" (.vbool true)) "_source"
        (.vstr "merged")

/-- Python `merged.get("status") in TERMINAL_STATUSES`: only a string value
can be a member of the frozenset of terminal statuses. -/
def isTerminalVal : Option Val → Bool
  | some (.vstr s) => TERMINAL_STATUSES.contains s
  | _ => false

/-- The mirror store: the two shelf directories, each mapping a request id
(the file name stem) to the text contents of its `.yaml` file. -/
structure MirrorState where
  pending : List (String × String)
  completed : List (String × String)
deriving Repr

/-- The source's `save_yaml_mirror`: overwrite the file `<request_id>.yaml`
on the shelf selected by `pending` with `dict_to_yaml(data)`. -/
def save_yaml_mirror (st : MirrorState) (request_id : String) (data : Rec)
    (pending : Bool) : MirrorState :=
  if pending then
    { st with pending := dictSet st.pending request_id (dict_to_yaml data) }
  else
    { st with completed := dictSet st.completed request_id (dict_to_yaml data) }

/-- The source's `load_yaml_mirror`: search the pending shelf first, then
the completed shelf, parse the file and tag the record with its shelf. -/
def load_yaml_mirror (st : MirrorState) (request_id : String) : Option Rec :=
  match dictGet st.pending request_id with
  | some content =>
      some (dictSet (yaml_to_dict content) "_location" (.vstr "pending"))
  | none =>
      match dictGet st.completed request_id with
      | some content =>
          some (dictSet (yaml_to_dict content) "_location" (.vstr "completed"))
      | none => none

/-- The source's `move_yaml_to_completed`: rename the pending file onto the
completed shelf (silently replacing any file already there, as
`Path.rename` does on POSIX); a no-op when no pending file exists. -/
def move_yaml_to_completed (st : MirrorState) (request_id : String) :
    MirrorState :=
  match dictGet st.pending request_id with
  | some content =>
      { pending := dictRemove st.pending request_id,
        completed := dictSet st.completed request_id content }
  | none => st

/-- The source's `list_local_yaml`, over the directory listing: each file is
a stem together with the result of reading it (`Except` models a read that
raises).  A failing file contributes the placeholder record; the parser
itself is total and never raises. -/
def list_local_yaml (files : List (String × Except String String)) :
    List Rec :=
  files.foldl
    (fun results file =>
      results ++
        [match file.2 with
         | .ok content => yaml_to_dict content
         | .error e => [("request_id", .vstr file.1), ("error", .vstr e)]])
    []

/-- The mirror-state effect of the source's `get_request`: fetch from the
API (`api_data` is the already-classified response), load the mirror, merge,
and when both sides exist re-persist the mirror with the merged
authoritative fields, moving it to the completed shelf when the merged
status is terminal.  The caller-facing report dictionary has no further
state effect and is not needed by the claims. -/
def get_request_state (api_data : Option Rec) (request_id : String)
    (st : MirrorState) : MirrorState :=
  let yaml_data := load_yaml_mirror st request_id
  let merged := merge_api_and_yaml api_data yaml_data
  match api_data, yaml_data with
  | some _, some y =>
      let y2 := dictUpdate y (merged.filter (fun kv => !(pyStartsWith kv.1 "_")))
      let is_terminal := isTerminalVal (dictGet merged "status")
      let st2 := save_yaml_mirror st request_id y2 (!is_terminal)
      if is_terminal then move_yaml_to_completed st2 request_id else st2
  | _, _ => st

/-- The decision-to-status mapping of `respond_to_request`:
`approved → local-approved`, `rejected → rejected`, any other member of
`VALID_STATUSES` passes through, anything else is a validation error. -/
def map_decision (decision : String) : Option String :=
  if decision = "approved" then some "local-approved"
  else if decision = "rejected" then some "rejected"
  else if VALID_STATUSES.contains decision then some decision
  else none

/-- The `update_payload` dictionary built by `respond_to_request`. -/
def update_payload (api_status decision comment decided_by timestamp : String) :
    Rec :=
  [("status", .vstr api_status), ("decision", .vstr decision),
   ("decision_comment", .vstr comment), ("decided_by", .vstr decided_by),
   ("decided_at", .vstr timestamp), ("updated_at", .vstr timestamp)]

/-- The mirror-state effect of the source's `respond_to_request`:
`api_synced` reports whether the PATCH to the API succeeded; the mirror, if
present, is updated with the payload and saved on the shelf selected by the
terminality of the mapped status, then moved to completed when terminal.
An invalid decision, or a missing mirror record, leaves the state as is. -/
def respond_to_request_state (api_synced : Bool)
    (request_id decision comment decided_by timestamp : String)
    (st : MirrorState) : MirrorState :=
  match map_decision decision with
  | none => st
  | some api_status =>
      match load_yaml_mirror st request_id with
      | some yaml_data =>
          let y2 := dictSet
            (dictUpdate yaml_data
              (update_payload api_status decision comment decided_by timestamp))
            "api_synced" (.vbool api_synced)
          let is_terminal := TERMINAL_STATUSES.contains api_status
          let st2 := save_yaml_mirror st request_id y2 (!is_terminal)
          if is_terminal then move_yaml_to_completed st2 request_id else st2
      | none => st

/-- Python `data.get("request_id")` followed by `if not req_id: continue`
and the use of the value in the file name `f"<id>.yaml"`: the id a sync
iteration works under, or `none` when the record is skipped as id-less. -/
def syncReqId (data : Rec) : Option String :=
  match dictGet data "request_id" with
  | some v => if valTruthy v then some (pyStr v) else none
  | none => none

/-- One iteration of the `sync_local_to_api` loop over one shelf file:
skip id-less or already-synced records; otherwise, when the API already has
the record (`api_get`) or accepts its submission (`api_submit`), mark the
record synced and save it back on the same shelf. -/
def sync_one (api_get : String → Option Rec) (api_submit : Rec → Option Rec)
    (shelf_pending : Bool) (st : MirrorState) (entry : String × String) :
    MirrorState :=
  let data := yaml_to_dict entry.2
  match syncReqId data with
  | none => st
  | some req_id =>
      if valTruthy ((dictGet data "api_synced").getD .vnull) then st
      else
        match api_get req_id with
        | some _ =>
            save_yaml_mirror st req_id (dictSet data "api_synced" (.vbool true))
              shelf_pending
        | none =>
            match api_submit data with
            | some _ =>
                save_yaml_mirror st req_id
                  (dictSet data "api_synced" (.vbool true)) shelf_pending
            | none => st

/-- The mirror-state effect of the source's `sync_local_to_api` once the
reachability probe has passed: fold `sync_one` over the snapshot listing of
the pending shelf, then over the snapshot listing of the completed shelf
(when the probe fails the whole operation aborts with the state unchanged,
which the identity on `MirrorState` already covers). -/
def sync_local_to_api_state (api_get : String → Option Rec)
    (api_submit : Rec → Option Rec) (st : MirrorState) : MirrorState :=
  let st1 := st.pending.foldl (sync_one api_get api_submit true) st
  st1.completed.foldl (sync_one api_get api_submit false) st1

/-- The abstract network outcome of one HTTP round trip issued by
`GovernanceAPI._request`: a success response carrying the raw body, an
error-status response (`urllib.error.HTTPError`), or a connection-level
failure (`urllib.error.URLError` / `OSError`: timeout, refused connection,
DNS failure). -/
inductive ApiOutcome where
  | httpSuccess (raw : String)
  | httpError (code : Nat) (reason : String)
  | connError (msg : String)
deriving Repr, DecidableEq

/-- The source's `GovernanceAPI._request`, as a function of the abstract
network outcome and the current `available` flag, returning the value given
to the caller together with the new `available` flag.  `parseJson` stands
for `json.loads`; a body it cannot parse raises `json.JSONDecodeError`,
which the source catches in the same clause as the connection failures.
A blank success body is the 204 No Content case and yields `{}`.  Note the
success path leaves `available` untouched. -/
def api_request (parseJson : String → Option Val) (outcome : ApiOutcome)
    (available : Bool) : Option Val × Bool :=
  match outcome with
  | .httpSuccess raw =>
      if pyStrip raw = "" then (some (.vdict []), available)
      else
        match parseJson raw with
        | some v => (some v, available)
        | none => (none, false)
  | .httpError _ _ => (none, true)
  | .connError _ => (none, false)

/-- The arguments of one `create_request` call, the generated id and
timestamp included (the source draws them from `generate_request_id`,
`get_timestamp` and the environment). -/
structure CreateArgs where
  api_response : Option Rec
  gen_id : String
  timestamp : String
  session_name : String
  operation_type : String
  agent_name : String
  reason : String
  requester : String
  scope : String
  risk_level : String
  source_cos : Option String
  source_manager : Option String
  target_cos : Option String
  target_manager : Option String

/-- The GovernanceRequest payload built by `create_request` (matching the
API contract), before the submission step. -/
def build_request_data (a : CreateArgs) : Rec :=
  [("request_id", .vstr a.gen_id),
   ("type", .vstr a.operation_type),
   ("operation", .vdict
      [("action", .vstr a.operation_type),
       ("target", .vstr a.agent_name),
       ("parameters", .vdict [])]),
   ("justification", .vstr a.reason),
   ("requester", .vstr a.requester),
   ("source_cos", .vstr (a.source_cos.getD a.session_name)),
   ("source_manager", .vstr (a.source_manager.getD "")),
   ("target_cos", .vstr (a.target_cos.getD "")),
   ("target_manager", .vstr (a.target_manager.getD "")),
   ("scope", .vstr a.scope),
   ("impact", .vdict
      [("scope", .vstr a.scope), ("risk_level", .vstr a.risk_level)]),
   ("status", .vstr "pending"),
   ("created_at", .vstr a.timestamp),
   ("updated_at", .vstr a.timestamp),
   ("decision", .vnull),
   ("decision_comment", .vnull),
   ("decided_by", .vnull),
   ("decided_at", .vnull),
   ("api_synced", .vbool false),
   ("operation_type", .vstr a.operation_type),
   ("agent_name", .vstr a.agent_name),
   ("reason", .vstr a.reason)]

/-- What `create_request` produces: the id reported in the result
dictionary, the id under which the mirror file is written, the record
written to the mirror, and the reported `api_synced` flag. -/
structure CreateOutcome where
  reported_id : Val
  saved_id : Val
  saved_data : Rec
  api_synced : Bool
deriving Repr

/-- The source's `create_request`: build the payload, POST it to the API
(the classified response is `a.api_response`), on success mark the record
synced and adopt any canonical id the response carries (overwriting both
the payload field and the local `request_id` variable used for the mirror
file name and the result), then save the mirror on the pending shelf. -/
def create_request (a : CreateArgs) : CreateOutcome :=
  let request_data := build_request_data a
  match a.api_response with
  | none =>
      { reported_id := .vstr a.gen_id, saved_id := .vstr a.gen_id,
        saved_data := request_data, api_synced := false }
  | some resp =>
      let d1 := dictSet request_data "api_synced" (.vbool true)
      match dictGet resp "request_id" with
      | some rid =>
          { reported_id := rid, saved_id := rid,
            saved_data := dictSet d1 "request_id" rid, api_synced := true }
      | none =>
          { reported_id := .vstr a.gen_id, saved_id := .vstr a.gen_id,
            saved_data := d1, api_synced := true }

/-- The fixed poll interval of `wait_for_decision` (`poll_interval = 5`). -/
def poll_interval : Nat := 5

/-- Whether a fetched status ends the wait
(`status in TERMINAL_STATUSES or status in APPROVED_STATUSES`). -/
def decidedStatus (s : String) : Bool :=
  TERMINAL_STATUSES.contains s || APPROVED_STATUSES.contains s

/-- The events `wait_for_decision` performs, in order: the `k`-th call to
`get_request`, and a `time.sleep` of the given number of seconds. -/
inductive WEvent where
  | fetchEv (k : Nat)
  | sleepEv (secs : Nat)
deriving Repr, DecidableEq

/-- The result dictionary of `wait_for_decision`, restricted to the fields
the claims are about. -/
structure WaitRes where
  success : Bool
  status : String
  waited_seconds : Nat
deriving Repr, DecidableEq

/-- The `while True` loop of `wait_for_decision`.  `fetch k` abstracts the
`k`-th `get_request` call: `none` when that call reports failure, otherwise
the status it reports.  Time is modelled as advancing by `poll_interval` at
each `time.sleep` (the fetches themselves are instantaneous), so `elapsed`
at the top of the loop is exact.  The loop body checks the timeout, fetches,
returns on a decided status, sleeps, and repeats; `fuel` only bounds the
recursion and is chosen by the caller so that it cannot run out before
`elapsed` reaches the timeout (the `0` case is the same timeout return the
loop itself would produce). -/
def wait_loop (fetch : Nat → Option String) (timeout : Nat) :
    Nat → Nat → Nat → WaitRes × List WEvent
  | 0, _, elapsed => (⟨false, "timeout", elapsed⟩, [])
  | fuel + 1, k, elapsed =>
      if timeout ≤ elapsed then (⟨false, "timeout", elapsed⟩, [])
      else
        match fetch k with
        | some s =>
            if decidedStatus s then (⟨true, s, elapsed⟩, [.fetchEv k])
            else
              let r := wait_loop fetch timeout fuel (k + 1)
                (elapsed + poll_interval)
              (r.1, .fetchEv k :: .sleepEv poll_interval :: r.2)
        | none =>
            let r := wait_loop fetch timeout fuel (k + 1)
              (elapsed + poll_interval)
            (r.1, .fetchEv k :: .sleepEv poll_interval :: r.2)

/-- The source's `wait_for_decision`: one initial `get_request` (event
`fetchEv 0`); when it fails, its error result is returned as is (modelled by
the `not_found` status); when the status is already terminal-or-approved,
return immediately with `waited_seconds = 0`; otherwise enter the poll
loop, whose first fetch follows the initial one with no sleep in between. -/
def wait_for_decision (fetch : Nat → Option String) (timeout : Nat) :
    WaitRes × List WEvent :=
  match fetch 0 with
  | none => (⟨false, "not_found", 0⟩, [.fetchEv 0])
  | some s =>
      if decidedStatus s then (⟨true, s, 0⟩, [.fetchEv 0])
      else
        let r := wait_loop fetch timeout timeout 1 0
        (r.1, .fetchEv 0 :: r.2)

/-- Whether an event is a `get_request` call. -/
def isFetchEv : WEvent → Bool
  | .fetchEv _ => true
  | .sleepEv _ => false

/-- No two adjacent events of the trace are both fetches, i.e. at least one
sleep of the poll interval separates any two successive `get_request`
calls. -/
def noBackToBackFetches : List WEvent → Bool
  | [] => true
  | [_] => true
  | a :: b :: rest =>
      !(isFetchEv a && isFetchEv b) && noBackToBackFetches (b :: rest)

theorem dictGet_set_self {α : Type} (l : List (String × α)) (k : String)
    (v : α) : dictGet (dictSet l k v) k = some v := by
  induction l with
  | nil => simp [dictSet, dictGet]
  | cons p rest ih =>
      obtain ⟨pk, pv⟩ := p
      by_cases h : pk = k
      · simp [dictSet, dictGet, h]
      · simp [dictSet, dictGet, h, ih]

theorem dictGet_set_ne {α : Type} (l : List (String × α)) (k k' : String)
    (v : α) (h : k' ≠ k) : dictGet (dictSet l k v) k' = dictGet l k' := by
  induction l with
  | nil =>
      simp only [dictSet, dictGet]
      rw [if_neg (Ne.symm h)]
  | cons p rest ih =>
      obtain ⟨pk, pv⟩ := p
      by_cases hpk : pk = k
      · subst hpk
        simp only [dictSet, if_pos rfl, dictGet]
        rw [if_neg (Ne.symm h), if_neg (Ne.symm h)]
      · simp only [dictSet, if_neg hpk, dictGet]
        rw [ih]

theorem dictSet_get_eq {α : Type} (l : List (String × α)) (k : String)
    (v : α) (h : dictGet l k = some v) : dictSet l k v = l := by
  induction l with
  | nil => simp [dictGet] at h
  | cons p rest ih =>
      obtain ⟨pk, pv⟩ := p
      by_cases hpk : pk = k
      · subst hpk
        simp [dictGet] at h
        simp [dictSet, h]
      · simp [dictGet, hpk] at h
        simp [dictSet, hpk, ih h]

theorem dictGet_remove_self {α : Type} (l : List (String × α)) (k : String) :
    dictGet (dictRemove l k) k = none := by
  induction l with
  | nil => simp [dictRemove, dictGet]
  | cons p rest ih =>
      obtain ⟨pk, pv⟩ := p
      by_cases hpk : pk = k
      · simpa [dictRemove, hpk] using ih
      · simpa [dictRemove, dictGet, hpk] using ih

theorem dictGet_remove_ne {α : Type} (l : List (String × α)) (k k' : String)
    (h : k' ≠ k) : dictGet (dictRemove l k) k' = dictGet l k' := by
  induction l with
  | nil => simp [dictRemove, dictGet]
  | cons p rest ih =>
      obtain ⟨pk, pv⟩ := p
      by_cases hpk : pk = k
      · subst hpk
        have h1 : dictRemove ((pk, pv) :: rest) pk = dictRemove rest pk := by
          simp [dictRemove]
        rw [h1, ih]
        simp only [dictGet]
        rw [if_neg (Ne.symm h)]
      · have h1 : dictRemove ((pk, pv) :: rest) k =
            (pk, pv) :: dictRemove rest k := by
          simp [dictRemove, hpk]
        rw [h1]
        simp only [dictGet]
        rw [ih]

theorem dictGet_mem_isSome {α : Type} (l : List (String × α))
    (p : String × α) (h : p ∈ l) : (dictGet l p.1).isSome = true := by
  induction l with
  | nil => cases h
  | cons q rest ih =>
      obtain ⟨qk, qv⟩ := q
      rcases List.mem_cons.mp h with h | h
      · subst h
        simp [dictGet]
      · by_cases hq : qk = p.1
        · simp [dictGet, hq]
        · simpa [dictGet, hq] using ih h

/-- The merged value the claim describes for an authoritative field: the
remote record's value wherever it is present and non-null, otherwise the
mirror record's value. -/
def mergeField (api_data yaml_data : Rec) (k : String) : Option Val :=
  match dictGet api_data k with
  | some .vnull => dictGet yaml_data k
  | some v => some v
  | none => dictGet yaml_data k

theorem dictGet_mergeAuthStep (a y : Rec) (k0 k : String) :
    dictGet (mergeAuthStep a y k0) k =
      if k = k0 then mergeField a y k else dictGet y k := by
  by_cases hk : k = k0
  · subst hk
    cases h : dictGet a k with
    | none => simp [mergeAuthStep, mergeField, h]
    | some v =>
        cases v <;>
          simp [mergeAuthStep, mergeField, h, dictGet_set_self]
  · cases h : dictGet a k0 with
    | none => simp [mergeAuthStep, h, hk]
    | some v =>
        cases v <;>
          simp [mergeAuthStep, h, hk, dictGet_set_ne _ _ _ _ hk]

theorem dictGet_mergeAuth (a : Rec) : ∀ (ks : List String) (y : Rec)
    (k : String), dictGet (ks.foldl (mergeAuthStep a) y) k =
      if k ∈ ks then mergeField a y k else dictGet y k := by
  intro ks
  induction ks with
  | nil => intro y k; simp
  | cons k0 ks ih =>
      intro y k
      have hstep := dictGet_mergeAuthStep a y k0 k
      have hfield : mergeField a (mergeAuthStep a y k0) k = mergeField a y k := by
        by_cases hk : k = k0
        · subst hk
          cases h : dictGet a k with
          | none => simp [mergeField, h, mergeAuthStep]
          | some v =>
              cases v <;> simp [mergeField, h, mergeAuthStep, dictGet_set_self]
        · cases h : dictGet a k with
          | none => simp [mergeField, h, hstep, hk]
          | some v => cases v <;> simp [mergeField, h, hstep, hk]
      show dictGet (ks.foldl (mergeAuthStep a) (mergeAuthStep a y k0)) k = _
      rw [ih (mergeAuthStep a y k0) k]
      by_cases hks : k ∈ ks
      · rw [if_pos hks, if_pos (List.mem_cons_of_mem _ hks), hfield]
      · rw [if_neg hks, hstep]
        by_cases hk : k = k0
        · rw [if_pos hk, if_pos (by simp [hk])]
        · rw [if_neg hk, if_neg (by simp [hk, hks])]

theorem mergeAuth_congr (a2 a y : Rec) : ∀ (ks : List String) (y2 : Rec),
    ks.Nodup →
    (∀ k ∈ ks, dictGet a2 k = mergeField a y k) →
    (∀ k ∈ ks, dictGet y2 k = dictGet y k) →
    ks.foldl (mergeAuthStep a2) y2 = ks.foldl (mergeAuthStep a) y2 := by
  intro ks
  induction ks with
  | nil => intro y2 _ _ _; rfl
  | cons k0 ks ih =>
      intro y2 hnd h1 h2
      have hk0a2 : dictGet a2 k0 = mergeField a y k0 := h1 k0 (by simp)
      have hk0y2 : dictGet y2 k0 = dictGet y k0 := h2 k0 (by simp)
      have hstepeq : mergeAuthStep a2 y2 k0 = mergeAuthStep a y2 k0 := by
        cases h : dictGet a k0 with
        | none =>
            have hfb : dictGet a2 k0 = dictGet y k0 := by
              rw [hk0a2]; simp [mergeField, h]
            cases hy : dictGet y k0 with
            | none => simp [mergeAuthStep, h, hfb, hy]
            | some w =>
                cases w with
                | vnull => simp [mergeAuthStep, h, hfb, hy]
                | vbool b =>
                    simp [mergeAuthStep, h, hfb, hy]
                    exact dictSet_get_eq _ _ _ (hk0y2.trans hy)
                | vint n =>
                    simp [mergeAuthStep, h, hfb, hy]
                    exact dictSet_get_eq _ _ _ (hk0y2.trans hy)
                | vstr s =>
                    simp [mergeAuthStep, h, hfb, hy]
                    exact dictSet_get_eq _ _ _ (hk0y2.trans hy)
                | vlist xs =>
                    simp [mergeAuthStep, h, hfb, hy]
                    exact dictSet_get_eq _ _ _ (hk0y2.trans hy)
                | vdict fs =>
                    simp [mergeAuthStep, h, hfb, hy]
                    exact dictSet_get_eq _ _ _ (hk0y2.trans hy)
        | some v =>
            cases v with
            | vnull =>
                have hfb : dictGet a2 k0 = dictGet y k0 := by
                  rw [hk0a2]; simp [mergeField, h]
                cases hy : dictGet y k0 with
                | none => simp [mergeAuthStep, h, hfb, hy]
                | some w =>
                    cases w with
                    | vnull => simp [mergeAuthStep, h, hfb, hy]
                    | vbool b =>
                        simp [mergeAuthStep, h, hfb, hy]
                        exact dictSet_get_eq _ _ _ (hk0y2.trans hy)
                    | vint n =>
                        simp [mergeAuthStep, h, hfb, hy]
                        exact dictSet_get_eq _ _ _ (hk0y2.trans hy)
                    | vstr s =>
                        simp [mergeAuthStep, h, hfb, hy]
                        exact dictSet_get_eq _ _ _ (hk0y2.trans hy)
                    | vlist xs =>
                        simp [mergeAuthStep, h, hfb, hy]
                        exact dictSet_get_eq _ _ _ (hk0y2.trans hy)
                    | vdict fs =>
                        simp [mergeAuthStep, h, hfb, hy]
                        exact dictSet_get_eq _ _ _ (hk0y2.trans hy)
            | vbool b =>
                have : dictGet a2 k0 = some (.vbool b) := by
                  rw [hk0a2]; simp [mergeField, h]
                simp [mergeAuthStep, h, this]
            | vint n =>
                have : dictGet a2 k0 = some (.vint n) := by
                  rw [hk0a2]; simp [mergeField, h]
                simp [mergeAuthStep, h, this]
            | vstr s =>
                have : dictGet a2 k0 = some (.vstr s) := by
                  rw [hk0a2]; simp [mergeField, h]
                simp [mergeAuthStep, h, this]
            | vlist xs =>
                have : dictGet a2 k0 = some (.vlist xs) := by
                  rw [hk0a2]; simp [mergeField, h]
                simp [mergeAuthStep, h, this]
            | vdict fs =>
                have : dictGet a2 k0 = some (.vdict fs) := by
                  rw [hk0a2]; simp [mergeField, h]
                simp [mergeAuthStep, h, this]
      show List.foldl (mergeAuthStep a2) (mergeAuthStep a2 y2 k0) ks = _
      rw [hstepeq]
      refine ih (mergeAuthStep a y2 k0) (List.Nodup.of_cons hnd)
        (fun k hk => h1 k (by simp [hk]))
        (fun k hk => ?_)
      have hne : k ≠ k0 := by
        intro hEq
        subst hEq
        exact (List.nodup_cons.mp hnd).1 hk
      rw [dictGet_mergeAuthStep a y2 k0 k]
      simp [hne]
      exact h2 k (by simp [hk])

theorem authKeyNe (k : String) (hk : k ∈ AUTHORITATIVE_KEYS) :
    k ≠ "api_synced" ∧ k ≠ "_source" := by
  simp only [AUTHORITATIVE_KEYS, List.mem_cons, List.not_mem_nil, or_false]
    at hk
  rcases hk with rfl | rfl | rfl | rfl | rfl | rfl <;>
    exact ⟨by decide, by decide⟩

theorem merge_both_get_auth (a y : Rec) (k : String)
    (hk : k ∈ AUTHORITATIVE_KEYS) :
    dictGet (merge_api_and_yaml (some a) (some y)) k = mergeField a y k := by
  obtain ⟨h1, h2⟩ := authKeyNe k hk
  show dictGet (dictSet (dictSet (AUTHORITATIVE_KEYS.foldl (mergeAuthStep a) y)
    "api_synced" (.vbool true)) "_source" (.vstr "merged")) k = _
  rw [dictGet_set_ne _ _ _ _ h2, dictGet_set_ne _ _ _ _ h1,
    dictGet_mergeAuth, if_pos hk]

theorem merge_both_get_api_synced (a y : Rec) :
    dictGet (merge_api_and_yaml (some a) (some y)) "api_synced" =
      some (.vbool true) := by
  show dictGet (dictSet (dictSet (AUTHORITATIVE_KEYS.foldl (mergeAuthStep a) y)
    "api_synced" (.vbool true)) "_source" (.vstr "merged")) "api_synced" = _
  rw [dictGet_set_ne _ _ _ _ (by decide), dictGet_set_self]

theorem merge_both_get_source (a y : Rec) :
    dictGet (merge_api_and_yaml (some a) (some y)) "_source" =
      some (.vstr "merged") := by
  show dictGet (dictSet (dictSet (AUTHORITATIVE_KEYS.foldl (mergeAuthStep a) y)
    "api_synced" (.vbool true)) "_source" (.vstr "merged")) "_source" = _
  rw [dictGet_set_self]

theorem merge_both_get_other (a y : Rec) (k : String)
    (hk : k ∉ AUTHORITATIVE_KEYS) (h1 : k ≠ "api_synced")
    (h2 : k ≠ "_source") :
    dictGet (merge_api_and_yaml (some a) (some y)) k = dictGet y k := by
  show dictGet (dictSet (dictSet (AUTHORITATIVE_KEYS.foldl (mergeAuthStep a) y)
    "api_synced" (.vbool true)) "_source" (.vstr "merged")) k = _
  rw [dictGet_set_ne _ _ _ _ h2, dictGet_set_ne _ _ _ _ h1,
    dictGet_mergeAuth, if_neg hk]

/-- C1: when both the remote record and the mirror record are present,
`merge_api_and_yaml` returns the mirror record with exactly the fields
`status, decision, decided_by, decided_at, decision_comment, updated_at`
overwritten by the remote value wherever the remote value is present and
non-null (`mergeField`), with `api_synced` set to `true` and the source tag
`merged`; every other field keeps the mirror record's value. -/
theorem C1_merge_both_present (api_data yaml_data : Rec) :
    (∀ k ∈ AUTHORITATIVE_KEYS,
        dictGet (merge_api_and_yaml (some api_data) (some yaml_data)) k =
          mergeField api_data yaml_data k) ∧
    dictGet (merge_api_and_yaml (some api_data) (some yaml_data))
        "api_synced" = some (.vbool true) ∧
    dictGet (merge_api_and_yaml (some api_data) (some yaml_data))
        "_source" = some (.vstr "merged") ∧
    (∀ k, k ∉ AUTHORITATIVE_KEYS → k ≠ "api_synced" → k ≠ "_source" →
        dictGet (merge_api_and_yaml (some api_data) (some yaml_data)) k =
          dictGet yaml_data k) :=
  ⟨fun k hk => merge_both_get_auth api_data yaml_data k hk,
   merge_both_get_api_synced api_data yaml_data,
   merge_both_get_source api_data yaml_data,
   fun k hk h1 h2 => merge_both_get_other api_data yaml_data k hk h1 h2⟩

/-- A concrete remote record used to instantiate the C1 theorem. -/
def c1api : Rec := [("status", .vstr "rejected"), ("decision", .vnull)]

/-- A concrete mirror record used to instantiate the C1 theorem. -/
def c1yaml : Rec :=
  [("status", .vstr "pending"), ("requester", .vstr "bob"),
   ("decision", .vstr "maybe")]

/-- Witness for C1 at concrete records: the non-null remote `status` wins,
the null remote `decision` leaves the mirror's value, `api_synced` and
`_source` are set, and the extra `requester` field keeps the mirror's
value. -/
theorem C1_merge_both_present_witness :
    dictGet (merge_api_and_yaml (some c1api) (some c1yaml)) "status" =
      some (.vstr "rejected") ∧
    dictGet (merge_api_and_yaml (some c1api) (some c1yaml)) "decision" =
      some (.vstr "maybe") ∧
    dictGet (merge_api_and_yaml (some c1api) (some c1yaml)) "api_synced" =
      some (.vbool true) ∧
    dictGet (merge_api_and_yaml (some c1api) (some c1yaml)) "_source" =
      some (.vstr "merged") ∧
    dictGet (merge_api_and_yaml (some c1api) (some c1yaml)) "requester" =
      some (.vstr "bob") := by
  have h := C1_merge_both_present c1api c1yaml
  refine ⟨?_, ?_, h.2.1, h.2.2.1, ?_⟩
  · rw [h.1 "status" (by decide)]; rfl
  · rw [h.1 "decision" (by decide)]; rfl
  · rw [h.2.2.2 "requester" (by decide) (by decide) (by decide)]; rfl

/-- C3: merge is idempotent when the remote side is unchanged: feeding the
record produced by `merge(r, m)` back in as the remote argument against the
same mirror `m` reproduces `merge(r, m)` exactly. -/
theorem C3_merge_idempotent (api_data yaml_data : Rec) :
    merge_api_and_yaml
        (some (merge_api_and_yaml (some api_data) (some yaml_data)))
        (some yaml_data) =
      merge_api_and_yaml (some api_data) (some yaml_data) := by
  have hnd : AUTHORITATIVE_KEYS.Nodup := by decide
  have hcongr : AUTHORITATIVE_KEYS.foldl
      (mergeAuthStep (merge_api_and_yaml (some api_data) (some yaml_data)))
      yaml_data =
      AUTHORITATIVE_KEYS.foldl (mergeAuthStep api_data) yaml_data := by
    refine mergeAuth_congr _ api_data yaml_data AUTHORITATIVE_KEYS yaml_data
      hnd (fun k hk => merge_both_get_auth api_data yaml_data k hk)
      (fun k _ => rfl)
  show dictSet (dictSet (AUTHORITATIVE_KEYS.foldl
      (mergeAuthStep (merge_api_and_yaml (some api_data) (some yaml_data)))
      yaml_data) "api_synced" (.vbool true)) "_source" (.vstr "merged") = _
  rw [hcongr]
  rfl

/-- A governance request record with a nested `operation` map, as
`create_request` itself writes to the mirror. -/
def c4record : Rec :=
  [("request_id", .vstr "GR-1"),
   ("operation", .vdict [("action", .vstr "spawn")])]

/-- C4 (failing evaluation): saving a record with a nested map to the
mirror and loading it back does not reproduce the record.  `dict_to_yaml`
writes the nested `operation` map as an indented block, but `yaml_to_dict`
has no nested-map handling: the bare `operation:` header starts a list (so
`operation` comes back as the empty list) and the inner `action` key is
hoisted to the top level.  The loaded record therefore differs from the
original on the non-underscore key `operation`, against the round-trip
property. -/
theorem C4_nested_map_not_roundtripped :
    load_yaml_mirror (save_yaml_mirror ⟨[], []⟩ "GR-1" c4record true) "GR-1" =
      some [("request_id", .vstr "GR-1"), ("operation", .vlist []),
            ("action", .vstr "spawn"), ("_location", .vstr "pending")] ∧
    dictGet [("request_id", Val.vstr "GR-1"), ("operation", Val.vlist []),
        ("action", Val.vstr "spawn"), ("_location", Val.vstr "pending")]
        "operation" ≠ dictGet c4record "operation" := by
  refine ⟨rfl, ?_⟩
  intro h
  rw [show dictGet [("request_id", Val.vstr "GR-1"),
        ("operation", Val.vlist []), ("action", Val.vstr "spawn"),
        ("_location", Val.vstr "pending")] "operation" =
      some (Val.vlist []) from rfl,
    show dictGet c4record "operation" =
      some (Val.vdict [("action", Val.vstr "spawn")]) from rfl] at h
  exact Val.noConfusion (Option.some.inj h)

theorem list_local_yaml_foldl_acc :
    ∀ (files : List (String × Except String String)) (acc : List Rec),
      files.foldl
        (fun results file =>
          results ++
            [match file.2 with
             | .ok content => yaml_to_dict content
             | .error e => [("request_id", .vstr file.1), ("error", .vstr e)]])
        acc =
      acc ++ files.map (fun file =>
        match file.2 with
        | .ok content => yaml_to_dict content
        | .error e => [("request_id", .vstr file.1), ("error", .vstr e)]) := by
  intro files
  induction files with
  | nil => intro acc; simp
  | cons f fs ih =>
      intro acc
      simp only [List.foldl, List.map, ih]
      simp

/-- C10: listing a mirror shelf never fails as a whole: the result has one
entry per file on the shelf, in order; a file whose read fails contributes
the placeholder record made of its id stem and the error string, and every
other file contributes its parsed record unaffected (the parser itself is
total, so only reading can fail). -/
theorem C10_list_local_yaml_substitutes
    (files : List (String × Except String String)) :
    list_local_yaml files =
      files.map (fun file =>
        match file.2 with
        | .ok content => yaml_to_dict content
        | .error e => [("request_id", .vstr file.1), ("error", .vstr e)]) ∧
    (list_local_yaml files).length = files.length := by
  have h := list_local_yaml_foldl_acc files []
  have h2 : list_local_yaml files = files.map (fun file =>
      match file.2 with
      | .ok content => yaml_to_dict content
      | .error e => [("request_id", .vstr file.1), ("error", .vstr e)]) := by
    simpa [list_local_yaml] using h
  exact ⟨h2, by rw [h2, List.length_map]⟩

/-- C5: an error-status response (`HTTPError`) returns `none` to the caller
and leaves the service marked reachable (`available = true`); a
connection-level failure (timeout, refused connection, DNS — `URLError` /
`OSError`) and an unparseable success payload (`JSONDecodeError`) return
`none` and mark the service unreachable (`available = false`). -/
theorem C5_request_failure_classification
    (parseJson : String → Option Val) (available : Bool) :
    (∀ code reason,
        api_request parseJson (.httpError code reason) available =
          (none, true)) ∧
    (∀ msg,
        api_request parseJson (.connError msg) available = (none, false)) ∧
    (∀ raw, pyStrip raw ≠ "" → parseJson raw = none →
        api_request parseJson (.httpSuccess raw) available = (none, false)) := by
  refine ⟨fun code reason => rfl, fun msg => rfl, fun raw h1 h2 => ?_⟩
  simp [api_request, h1, h2]

/-- Witness for C5 at concrete outcomes: a 500 response, a refused
connection, and a success response whose body does not parse. -/
theorem C5_request_failure_classification_witness :
    api_request (fun _ => none) (.httpError 500 "boom") true = (none, true) ∧
    api_request (fun _ => none) (.connError "refused") true = (none, false) ∧
    api_request (fun _ => none) (.httpSuccess "bogus") true = (none, false) := by
  have h := C5_request_failure_classification (fun _ => none) true
  exact ⟨h.1 500 "boom", h.2.1 "refused", h.2.2 "bogus" (by decide) rfl⟩

/-- C6 counterexample: the claim says a successful call restores the
liveness flag to true, but the success path of `_request` never touches
`self.available`.  Concretely: a connection failure flips the flag to
false, and a subsequent fully successful call (body parses) still leaves it
false. -/
theorem C6_counterexample :
    (api_request (fun _ => some (.vdict [])) (.connError "refused") true).2 =
      false ∧
    api_request (fun _ => some (.vdict [])) (.httpSuccess "\x7b\x7d")
        ((api_request (fun _ => some (.vdict []))
          (.connError "refused") true).2) =
      (some (.vdict []), false) :=
  ⟨rfl, rfl⟩

/-- C6 amended: the liveness flag is never consulted by `_request` (no call
short-circuits; every call still issues its request), and its dynamics are:
an error-status response sets it to true, a connection failure or an
unparseable success body sets it to false, and a successful call — empty
204 body included — leaves it unchanged (so a false flag survives
successes and is only restored by a reachable-but-rejected response). -/
theorem C6_liveness_flag_dynamics (parseJson : String → Option Val)
    (outcome : ApiOutcome) (available : Bool) :
    (api_request parseJson outcome available).2 =
      (match outcome with
       | .httpError _ _ => true
       | .connError _ => false
       | .httpSuccess raw =>
           if pyStrip raw = "" then available
           else
             match parseJson raw with
             | some _ => available
             | none => false) := by
  cases outcome with
  | httpSuccess raw =>
      by_cases h : pyStrip raw = ""
      · simp [api_request, h]
      · cases hp : parseJson raw <;> simp [api_request, h, hp]
  | httpError code reason => rfl
  | connError msg => rfl

/-- The id under which a record is first accepted by either store, in the
claim's words: when the submit to the API succeeded, the canonical id the
response carries (or the generated id when the response carries none);
otherwise the generated id under which the mirror is the first acceptor. -/
def firstPersistedId (api_response : Option Rec) (gen_id : String) : Val :=
  match api_response with
  | some resp =>
      match dictGet resp "request_id" with
      | some rid => rid
      | none => .vstr gen_id
  | none => .vstr gen_id

/-- C7: `create_request` never reassigns the request id once a store has
accepted the record: the id reported to the caller, the id under which the
mirror file is written, and the `request_id` field stored inside the mirror
record all equal the id first accepted by either store
(`firstPersistedId`). -/
theorem C7_request_id_immutable (a : CreateArgs) :
    (create_request a).reported_id = (create_request a).saved_id ∧
    (create_request a).saved_id = firstPersistedId a.api_response a.gen_id ∧
    dictGet (create_request a).saved_data "request_id" =
      some ((create_request a).saved_id) := by
  cases ha : a.api_response with
  | none =>
      refine ⟨by simp [create_request, ha], by simp [create_request, ha, firstPersistedId], ?_⟩
      simp [create_request, ha, build_request_data, dictGet]
  | some resp =>
      cases hr : dictGet resp "request_id" with
      | none =>
          refine ⟨by simp [create_request, ha, hr],
            by simp [create_request, ha, hr, firstPersistedId], ?_⟩
          simp only [create_request, ha, hr]
          rw [dictGet_set_ne _ _ _ _ (by decide)]
          simp [build_request_data, dictGet]
      | some rid =>
          refine ⟨by simp [create_request, ha, hr],
            by simp [create_request, ha, hr, firstPersistedId], ?_⟩
          simp only [create_request, ha, hr]
          rw [dictGet_set_self]

theorem wait_loop_timeout (fetch : Nat → Option String) (timeout : Nat)
    (hnever : ∀ k s, fetch k = some s → decidedStatus s = false) :
    ∀ (fuel k elapsed : Nat), timeout ≤ elapsed + poll_interval * fuel →
      (wait_loop fetch timeout fuel k elapsed).1.status = "timeout" ∧
      (wait_loop fetch timeout fuel k elapsed).1.success = false ∧
      timeout ≤ (wait_loop fetch timeout fuel k elapsed).1.waited_seconds := by
  intro fuel
  induction fuel with
  | zero =>
      intro k e h
      refine ⟨rfl, rfl, ?_⟩
      simpa [wait_loop] using h
  | succ n ih =>
      intro k e h
      by_cases he : timeout ≤ e
      · simp [wait_loop, he]
      · cases hf : fetch k with
        | some s =>
            have hd := hnever k s hf
            simp only [wait_loop, if_neg he, hf, hd, Bool.false_eq_true,
              if_false]
            exact ih (k + 1) (e + poll_interval)
              (by simp only [poll_interval] at h ⊢; omega)
        | none =>
            simp only [wait_loop, if_neg he, hf]
            exact ih (k + 1) (e + poll_interval)
              (by simp only [poll_interval] at h ⊢; omega)

/-- C8: `wait_for_decision` on an existing request terminates: when the
status reported by the initial fetch is already terminal-or-approved it
returns immediately with `waited_seconds = 0`; and when no fetch ever
reports a decided status it returns the timeout outcome — `success =
false`, `status = "timeout"` and `waited_seconds ≥ timeout` — rather than
waiting open-endedly. -/
theorem C8_wait_terminates (fetch : Nat → Option String) (timeout : Nat)
    (s0 : String) (h0 : fetch 0 = some s0) :
    (decidedStatus s0 = true →
        wait_for_decision fetch timeout = (⟨true, s0, 0⟩, [.fetchEv 0])) ∧
    ((∀ k s, fetch k = some s → decidedStatus s = false) →
        (wait_for_decision fetch timeout).1.status = "timeout" ∧
        (wait_for_decision fetch timeout).1.success = false ∧
        timeout ≤ (wait_for_decision fetch timeout).1.waited_seconds) := by
  constructor
  · intro hd
    simp [wait_for_decision, h0, hd]
  · intro hnever
    have hd := hnever 0 s0 h0
    have hloop := wait_loop_timeout fetch timeout hnever timeout 1 0
      (by simp only [poll_interval]; omega)
    simpa [wait_for_decision, h0, hd] using hloop

/-- Witness for C8: a fetch that always reports `pending` with timeout 7
produces the timeout outcome with at least 7 waited seconds. -/
theorem C8_wait_terminates_witness :
    (wait_for_decision (fun _ => some "pending") 7).1.status = "timeout" ∧
    (wait_for_decision (fun _ => some "pending") 7).1.success = false ∧
    7 ≤ (wait_for_decision (fun _ => some "pending") 7).1.waited_seconds := by
  have h := C8_wait_terminates (fun _ => some "pending") 7 "pending" rfl
  exact h.2 (fun k s hs => by
    injection hs with h2
    rw [← h2]
    decide)

/-- C9 counterexample: the claim says every repeated fetch after the
initial one is preceded by a sleep of the poll interval, but the first poll
fetch follows the initial verification fetch immediately: with a fetch that
always reports `pending` and timeout 6 the trace opens with two adjacent
fetches and no sleep between them. -/
theorem C9_counterexample :
    (wait_for_decision (fun _ => some "pending") 6).2 =
      [.fetchEv 0, .fetchEv 1, .sleepEv 5, .fetchEv 2, .sleepEv 5] ∧
    noBackToBackFetches ((wait_for_decision (fun _ => some "pending") 6).2) =
      false :=
  ⟨rfl, rfl⟩

theorem noBTB_sleep_cons (l : List WEvent) (p : Nat) :
    noBackToBackFetches (.sleepEv p :: l) = noBackToBackFetches l := by
  cases l with
  | nil => rfl
  | cons b rest => simp [noBackToBackFetches, isFetchEv]

theorem wait_loop_trace_noBTB (fetch : Nat → Option String) (timeout : Nat) :
    ∀ (fuel k elapsed : Nat),
      noBackToBackFetches (wait_loop fetch timeout fuel k elapsed).2 = true := by
  intro fuel
  induction fuel with
  | zero => intro k e; rfl
  | succ n ih =>
      intro k e
      by_cases he : timeout ≤ e
      · simp [wait_loop, he, noBackToBackFetches]
      · cases hf : fetch k with
        | some s =>
            by_cases hd : decidedStatus s
            · simp [wait_loop, he, hf, hd, noBackToBackFetches]
            · simp only [wait_loop, if_neg he, hf, hd, Bool.false_eq_true,
                if_false]
              rw [show (.fetchEv k :: .sleepEv poll_interval ::
                  (wait_loop fetch timeout n (k + 1)
                    (e + poll_interval)).2 : List WEvent) =
                .fetchEv k :: (.sleepEv poll_interval ::
                  (wait_loop fetch timeout n (k + 1)
                    (e + poll_interval)).2) from rfl]
              show (!(isFetchEv (.fetchEv k) &&
                  isFetchEv (.sleepEv poll_interval)) &&
                noBackToBackFetches (.sleepEv poll_interval ::
                  (wait_loop fetch timeout n (k + 1) (e + poll_interval)).2)) =
                true
              rw [noBTB_sleep_cons, ih (k + 1) (e + poll_interval)]
              rfl
        | none =>
            simp only [wait_loop, if_neg he, hf]
            show (!(isFetchEv (.fetchEv k) &&
                isFetchEv (.sleepEv poll_interval)) &&
              noBackToBackFetches (.sleepEv poll_interval ::
                (wait_loop fetch timeout n (k + 1) (e + poll_interval)).2)) =
              true
            rw [noBTB_sleep_cons, ih (k + 1) (e + poll_interval)]
            rfl

/-- C9 amended: inside the poll loop every fetch is followed by a sleep of
the 5-unit poll interval before the next fetch, so all successive poll
fetches are separated by at least the poll interval; the one exception the
code allows is at the boundary — the first poll fetch follows the initial
verification fetch with no sleep in between.  Formally: the trace with its
initial fetch removed has no two adjacent fetch events. -/
theorem C9_poll_fetches_separated (fetch : Nat → Option String)
    (timeout : Nat) :
    noBackToBackFetches ((wait_for_decision fetch timeout).2.drop 1) = true := by
  cases hf : fetch 0 with
  | none => simp [wait_for_decision, hf, noBackToBackFetches]
  | some s =>
      by_cases hd : decidedStatus s
      · simp [wait_for_decision, hf, hd, noBackToBackFetches]
      · simp only [wait_for_decision, hf, hd, Bool.false_eq_true, if_false,
          List.drop_succ_cons, List.drop_zero]
        exact wait_loop_trace_noBTB fetch timeout timeout 1 0

/-- The lifecycle operations of claim C2, with their nondeterministic
inputs (classified API responses, timestamps) made explicit: `create`
writes the freshly built record to the pending shelf under the adopted id;
`fetch` is `get_request`; `decide` is `respond_to_request`; `sync` is
`sync_local_to_api` past its reachability probe. -/
inductive LifecycleOp where
  | createOp (a : CreateArgs)
  | fetchOp (api_data : Option Rec) (request_id : String)
  | decideOp (api_synced : Bool)
      (request_id decision comment decided_by timestamp : String)
  | syncOp (api_get : String → Option Rec) (api_submit : Rec → Option Rec)

/-- The mirror-state effect of one lifecycle operation. -/
def applyOp : LifecycleOp → MirrorState → MirrorState
  | .createOp a, st =>
      save_yaml_mirror st (pyStr (create_request a).saved_id)
        (create_request a).saved_data true
  | .fetchOp api_data request_id, st =>
      get_request_state api_data request_id st
  | .decideOp ok request_id decision comment decided_by timestamp, st =>
      respond_to_request_state ok request_id decision comment decided_by
        timestamp st
  | .syncOp api_get api_submit, st =>
      sync_local_to_api_state api_get api_submit st

/-- The status a mirror file holds, as `load_yaml_mirror` would report it. -/
def statusOfFile (content : String) : Option Val :=
  dictGet (yaml_to_dict content) "status"

/-- Every request id is present on at most one mirror shelf. -/
def MirrorAtMostOne (st : MirrorState) : Prop :=
  ∀ id, ¬((dictGet st.pending id).isSome = true ∧
          (dictGet st.completed id).isSome = true)

/-- Each shelf only holds records of the matching status class: pending
files non-terminal, completed files terminal. -/
def MirrorPlacement (st : MirrorState) : Prop :=
  ∀ id content,
    (dictGet st.pending id = some content →
        isTerminalVal (statusOfFile content) = false) ∧
    (dictGet st.completed id = some content →
        isTerminalVal (statusOfFile content) = true)

/-- The full shelf invariant claimed by C2: at most one shelf per id, the
completed shelf for terminal statuses and the pending shelf for
non-terminal ones. -/
def MirrorInvariant (st : MirrorState) : Prop :=
  MirrorAtMostOne st ∧ MirrorPlacement st

/-- A mirror state satisfying the claimed invariant: one executed request
on the completed shelf. -/
def c2state : MirrorState := ⟨[], [("GR-1", "status: executed")]⟩

/-- C2 counterexample: the invariant is not preserved by the lifecycle
operations.  Starting from a state satisfying it (one executed request on
the completed shelf), a `get_request` whose API response carries the
non-terminal status `pending` for that id merges to a non-terminal record
and re-persists it on the pending shelf, while the completed file stays —
the id is now on both shelves at once. -/
theorem C2_counterexample :
    MirrorInvariant c2state ∧
    ¬ MirrorInvariant
        (applyOp (.fetchOp (some [("status", .vstr "pending")]) "GR-1")
          c2state) := by
  constructor
  · constructor
    · intro id hid
      obtain ⟨h1, _⟩ := hid
      simp [c2state, dictGet] at h1
    · intro id content
      constructor
      · intro h
        simp [c2state, dictGet] at h
      · intro h
        by_cases hid : "GR-1" = id
        · subst hid
          simp only [c2state, dictGet, if_pos rfl] at h
          injection h with h2
          rw [← h2]
          rfl
        · simp [c2state, dictGet, hid] at h
  · intro hinv
    obtain ⟨h1, _⟩ := hinv
    exact h1 "GR-1" ⟨rfl, rfl⟩

/-- The side conditions under which the amended C2 holds, per operation:
`create` runs under an id whose completed file does not exist yet; `fetch`
and `decide` do not assign a non-terminal (merged respectively mapped)
status to a request currently on the completed shelf (statuses never
regress out of terminal); `sync` processes files whose stored `request_id`
matches their file name stem. -/
def opSide : LifecycleOp → MirrorState → Prop
  | .createOp a, st =>
      dictGet st.completed (pyStr (create_request a).saved_id) = none
  | .fetchOp api_data request_id, st =>
      api_data.isSome = true →
        (dictGet st.completed request_id).isSome = true →
          isTerminalVal (dictGet
            (merge_api_and_yaml api_data (load_yaml_mirror st request_id))
            "status") = true
  | .decideOp _ request_id decision _ _ _, st =>
      (dictGet st.completed request_id).isSome = true →
        ∀ s, map_decision decision = some s →
          TERMINAL_STATUSES.contains s = true
  | .syncOp _ _, st =>
      (∀ p ∈ st.pending, ∀ rid,
          syncReqId (yaml_to_dict p.2) = some rid → rid = p.1) ∧
      (∀ p ∈ st.completed, ∀ rid,
          syncReqId (yaml_to_dict p.2) = some rid → rid = p.1)

theorem dictSet_presence_of_mem {α : Type} (l : List (String × α))
    (k : String) (v : α) (hk : (dictGet l k).isSome = true) :
    ∀ id, (dictGet (dictSet l k v) id).isSome = (dictGet l id).isSome := by
  intro id
  by_cases hid : id = k
  · subst hid
    rw [dictGet_set_self]
    simp [hk]
  · rw [dictGet_set_ne _ _ _ _ hid]

theorem sync_one_pending_presence (api_get : String → Option Rec)
    (api_submit : Rec → Option Rec) (st : MirrorState)
    (entry : String × String)
    (hrid : ∀ rid, syncReqId (yaml_to_dict entry.2) = some rid →
        (dictGet st.pending rid).isSome = true) :
    (∀ id, (dictGet (sync_one api_get api_submit true st entry).pending
        id).isSome = (dictGet st.pending id).isSome) ∧
    (sync_one api_get api_submit true st entry).completed = st.completed := by
  cases hsr : syncReqId (yaml_to_dict entry.2) with
  | none => simp [sync_one, hsr]
  | some rid =>
      have hp := hrid rid hsr
      by_cases htr : valTruthy ((dictGet (yaml_to_dict entry.2)
          "api_synced").getD .vnull) = true
      · simp [sync_one, hsr, htr]
      · cases hg : api_get rid with
        | some r =>
            constructor
            · intro id
              simp only [sync_one, hsr, htr, hg, save_yaml_mirror, if_true]
              simpa [htr] using dictSet_presence_of_mem st.pending rid _ hp id
            · simp [sync_one, hsr, htr, hg, save_yaml_mirror]
        | none =>
            cases hs : api_submit (yaml_to_dict entry.2) with
            | some r =>
                constructor
                · intro id
                  simp only [sync_one, hsr, htr, hg, hs, save_yaml_mirror,
                    if_true]
                  simpa [htr] using
                    dictSet_presence_of_mem st.pending rid _ hp id
                · simp [sync_one, hsr, htr, hg, hs, save_yaml_mirror]
            | none => simp [sync_one, hsr, htr, hg, hs]

theorem sync_one_completed_presence (api_get : String → Option Rec)
    (api_submit : Rec → Option Rec) (st : MirrorState)
    (entry : String × String)
    (hrid : ∀ rid, syncReqId (yaml_to_dict entry.2) = some rid →
        (dictGet st.completed rid).isSome = true) :
    (∀ id, (dictGet (sync_one api_get api_submit false st entry).completed
        id).isSome = (dictGet st.completed id).isSome) ∧
    (sync_one api_get api_submit false st entry).pending = st.pending := by
  cases hsr : syncReqId (yaml_to_dict entry.2) with
  | none => simp [sync_one, hsr]
  | some rid =>
      have hp := hrid rid hsr
      by_cases htr : valTruthy ((dictGet (yaml_to_dict entry.2)
          "api_synced").getD .vnull) = true
      · simp [sync_one, hsr, htr]
      · cases hg : api_get rid with
        | some r =>
            constructor
            · intro id
              simp only [sync_one, hsr, htr, hg, save_yaml_mirror]
              simpa [htr] using
                dictSet_presence_of_mem st.completed rid _ hp id
            · simp [sync_one, hsr, htr, hg, save_yaml_mirror]
        | none =>
            cases hs : api_submit (yaml_to_dict entry.2) with
            | some r =>
                constructor
                · intro id
                  simp only [sync_one, hsr, htr, hg, hs, save_yaml_mirror]
                  simpa [htr] using
                    dictSet_presence_of_mem st.completed rid _ hp id
                · simp [sync_one, hsr, htr, hg, hs, save_yaml_mirror]
            | none => simp [sync_one, hsr, htr, hg, hs]

theorem sync_fold_pending_presence (api_get : String → Option Rec)
    (api_submit : Rec → Option Rec) :
    ∀ (entries : List (String × String)) (st0 st : MirrorState),
      (∀ id, (dictGet st.pending id).isSome =
        (dictGet st0.pending id).isSome) →
      st.completed = st0.completed →
      (∀ p ∈ entries, ∀ rid, syncReqId (yaml_to_dict p.2) = some rid →
          (dictGet st0.pending rid).isSome = true) →
      (∀ id, (dictGet ((entries.foldl (sync_one api_get api_submit true)
          st)).pending id).isSome = (dictGet st0.pending id).isSome) ∧
      (entries.foldl (sync_one api_get api_submit true) st).completed =
        st0.completed := by
  intro entries
  induction entries with
  | nil => intro st0 st h1 h2 _; exact ⟨h1, h2⟩
  | cons p ps ih =>
      intro st0 st h1 h2 h3
      have hone := sync_one_pending_presence api_get api_submit st p
        (fun rid hr => by
          rw [h1 rid]
          exact h3 p (List.mem_cons_self p ps) rid hr)
      exact ih st0 (sync_one api_get api_submit true st p)
        (fun id => (hone.1 id).trans (h1 id))
        (hone.2.trans h2)
        (fun q hq => h3 q (List.mem_cons_of_mem p hq))

theorem sync_fold_completed_presence (api_get : String → Option Rec)
    (api_submit : Rec → Option Rec) :
    ∀ (entries : List (String × String)) (st0 st : MirrorState),
      (∀ id, (dictGet st.completed id).isSome =
        (dictGet st0.completed id).isSome) →
      st.pending = st0.pending →
      (∀ p ∈ entries, ∀ rid, syncReqId (yaml_to_dict p.2) = some rid →
          (dictGet st0.completed rid).isSome = true) →
      (∀ id, (dictGet ((entries.foldl (sync_one api_get api_submit false)
          st)).completed id).isSome = (dictGet st0.completed id).isSome) ∧
      (entries.foldl (sync_one api_get api_submit false) st).pending =
        st0.pending := by
  intro entries
  induction entries with
  | nil => intro st0 st h1 h2 _; exact ⟨h1, h2⟩
  | cons p ps ih =>
      intro st0 st h1 h2 h3
      have hone := sync_one_completed_presence api_get api_submit st p
        (fun rid hr => by
          rw [h1 rid]
          exact h3 p (List.mem_cons_self p ps) rid hr)
      exact ih st0 (sync_one api_get api_submit false st p)
        (fun id => (hone.1 id).trans (h1 id))
        (hone.2.trans h2)
        (fun q hq => h3 q (List.mem_cons_of_mem p hq))

theorem save_pending_atMostOne (st : MirrorState) (request_id : String)
    (data : Rec) (hInv : MirrorAtMostOne st)
    (hcompl : (dictGet st.completed request_id).isSome = false) :
    MirrorAtMostOne (save_yaml_mirror st request_id data true) := by
  intro id hid
  obtain ⟨h1, h2⟩ := hid
  have e1 : (save_yaml_mirror st request_id data true).pending =
      dictSet st.pending request_id (dict_to_yaml data) := rfl
  have e2 : (save_yaml_mirror st request_id data true).completed =
      st.completed := rfl
  rw [e1] at h1
  rw [e2] at h2
  by_cases hk : id = request_id
  · rw [hk] at h2
    rw [hcompl] at h2
    cases h2
  · rw [dictGet_set_ne _ _ _ _ hk] at h1
    exact hInv id ⟨h1, h2⟩

theorem save_terminal_move_atMostOne (st : MirrorState) (request_id : String)
    (data : Rec) (hInv : MirrorAtMostOne st) :
    MirrorAtMostOne (move_yaml_to_completed
      (save_yaml_mirror st request_id data false) request_id) := by
  have e0 : (save_yaml_mirror st request_id data false).pending =
      st.pending := rfl
  cases hp : dictGet st.pending request_id with
  | some c =>
      have hpost : move_yaml_to_completed
          (save_yaml_mirror st request_id data false) request_id =
          ⟨dictRemove st.pending request_id,
           dictSet (dictSet st.completed request_id (dict_to_yaml data))
             request_id c⟩ := by
        simp [move_yaml_to_completed, save_yaml_mirror, hp]
      rw [hpost]
      intro id hid
      obtain ⟨h1, h2⟩ := hid
      by_cases hk : id = request_id
      · rw [hk] at h1
        rw [dictGet_remove_self] at h1
        cases h1
      · rw [show (⟨dictRemove st.pending request_id,
            dictSet (dictSet st.completed request_id (dict_to_yaml data))
              request_id c⟩ : MirrorState).pending =
            dictRemove st.pending request_id from rfl,
          dictGet_remove_ne _ _ _ hk] at h1
        rw [show (⟨dictRemove st.pending request_id,
            dictSet (dictSet st.completed request_id (dict_to_yaml data))
              request_id c⟩ : MirrorState).completed =
            dictSet (dictSet st.completed request_id (dict_to_yaml data))
              request_id c from rfl,
          dictGet_set_ne _ _ _ _ hk, dictGet_set_ne _ _ _ _ hk] at h2
        exact hInv id ⟨h1, h2⟩
  | none =>
      have hpost : move_yaml_to_completed
          (save_yaml_mirror st request_id data false) request_id =
          save_yaml_mirror st request_id data false := by
        simp [move_yaml_to_completed, save_yaml_mirror, hp]
      rw [hpost]
      intro id hid
      obtain ⟨h1, h2⟩ := hid
      rw [e0] at h1
      have e2 : (save_yaml_mirror st request_id data false).completed =
          dictSet st.completed request_id (dict_to_yaml data) := rfl
      rw [e2] at h2
      by_cases hk : id = request_id
      · rw [hk, hp] at h1
        cases h1
      · rw [dictGet_set_ne _ _ _ _ hk] at h2
        exact hInv id ⟨h1, h2⟩

/-- C2 amended: after any lifecycle operation — create under a fresh id,
fetch, decide, or sync — every request id is present on at most one mirror
shelf, never both, provided the operation does not assign a non-terminal
status to a request currently on the completed shelf and sync records carry
the id they are filed under (`opSide`).  (The stronger placement clause of
the original claim — the completed shelf holding terminal-status records
only — fails separately: a decide or fetch that reaches a terminal status
while the record sits on the pending shelf renames the stale pre-decision
file over the freshly written completed file.) -/
theorem C2_at_most_one_shelf (op : LifecycleOp) (st : MirrorState)
    (hInv : MirrorAtMostOne st) (hSide : opSide op st) :
    MirrorAtMostOne (applyOp op st) := by
  cases op with
  | createOp a =>
      intro id hid
      obtain ⟨h1, h2⟩ := hid
      have e1 : (applyOp (.createOp a) st).pending =
          dictSet st.pending (pyStr (create_request a).saved_id)
            (dict_to_yaml (create_request a).saved_data) := rfl
      have e2 : (applyOp (.createOp a) st).completed = st.completed := rfl
      rw [e1] at h1
      rw [e2] at h2
      by_cases hk : id = pyStr (create_request a).saved_id
      · rw [hk] at h2
        rw [show dictGet st.completed (pyStr (create_request a).saved_id) =
            none from hSide] at h2
        cases h2
      · rw [dictGet_set_ne _ _ _ _ hk] at h1
        exact hInv id ⟨h1, h2⟩
  | fetchOp api_data request_id =>
      cases api_data with
      | none =>
          have e : applyOp (.fetchOp none request_id) st = st := by
            show get_request_state none request_id st = st
            cases load_yaml_mirror st request_id <;> rfl
          rw [e]
          exact hInv
      | some a =>
          cases hyd : load_yaml_mirror st request_id with
          | none =>
              have e : applyOp (.fetchOp (some a) request_id) st = st := by
                show get_request_state (some a) request_id st = st
                simp [get_request_state, hyd]
              rw [e]
              exact hInv
          | some y =>
              by_cases hterm : isTerminalVal
                  (dictGet (merge_api_and_yaml (some a) (some y)) "status") =
                  true
              · have e : applyOp (.fetchOp (some a) request_id) st =
                    move_yaml_to_completed
                      (save_yaml_mirror st request_id
                        (dictUpdate y
                          ((merge_api_and_yaml (some a) (some y)).filter
                            (fun kv => !(pyStartsWith kv.1 "_")))) false)
                      request_id := by
                  show get_request_state (some a) request_id st = _
                  simp [get_request_state, hyd, hterm]
                rw [e]
                exact save_terminal_move_atMostOne st request_id _ hInv
              · have hterm2 : isTerminalVal
                    (dictGet (merge_api_and_yaml (some a) (some y)) "status") =
                    false := by
                  cases h : isTerminalVal
                      (dictGet (merge_api_and_yaml (some a) (some y)) "status")
                  · rfl
                  · exact absurd h hterm
                have hc : (dictGet st.completed request_id).isSome = false := by
                  cases hcc : (dictGet st.completed request_id).isSome
                  · rfl
                  · exfalso
                    apply hterm
                    have hs := hSide rfl hcc
                    rw [hyd] at hs
                    exact hs
                have e : applyOp (.fetchOp (some a) request_id) st =
                    save_yaml_mirror st request_id
                      (dictUpdate y
                        ((merge_api_and_yaml (some a) (some y)).filter
                          (fun kv => !(pyStartsWith kv.1 "_")))) true := by
                  show get_request_state (some a) request_id st = _
                  simp [get_request_state, hyd, hterm2]
                rw [e]
                exact save_pending_atMostOne st request_id _ hInv hc
  | decideOp ok request_id decision comment decided_by timestamp =>
      cases hmd : map_decision decision with
      | none =>
          have e : applyOp
              (.decideOp ok request_id decision comment decided_by timestamp)
              st = st := by
            show respond_to_request_state ok request_id decision comment
              decided_by timestamp st = st
            simp [respond_to_request_state, hmd]
          rw [e]
          exact hInv
      | some api_status =>
          cases hyd : load_yaml_mirror st request_id with
          | none =>
              have e : applyOp
                  (.decideOp ok request_id decision comment decided_by
                    timestamp) st = st := by
                show respond_to_request_state ok request_id decision comment
                  decided_by timestamp st = st
                simp [respond_to_request_state, hmd, hyd]
              rw [e]
              exact hInv
          | some y =>
              by_cases hterm : TERMINAL_STATUSES.contains api_status = true
              · have e : applyOp
                    (.decideOp ok request_id decision comment decided_by
                      timestamp) st =
                    move_yaml_to_completed
                      (save_yaml_mirror st request_id
                        (dictSet (dictUpdate y
                          (update_payload api_status decision comment
                            decided_by timestamp)) "api_synced" (.vbool ok))
                        false) request_id := by
                  show respond_to_request_state ok request_id decision comment
                    decided_by timestamp st = _
                  have hmem : api_status ∈ TERMINAL_STATUSES := by
                    simpa using hterm
                  simp [respond_to_request_state, hmd, hyd, hmem]
                rw [e]
                exact save_terminal_move_atMostOne st request_id _ hInv
              · have hterm2 : TERMINAL_STATUSES.contains api_status = false := by
                  cases h : TERMINAL_STATUSES.contains api_status
                  · rfl
                  · exact absurd h hterm
                have hc : (dictGet st.completed request_id).isSome = false := by
                  cases hcc : (dictGet st.completed request_id).isSome
                  · rfl
                  · exact absurd (hSide hcc api_status hmd) hterm
                have e : applyOp
                    (.decideOp ok request_id decision comment decided_by
                      timestamp) st =
                    save_yaml_mirror st request_id
                      (dictSet (dictUpdate y
                        (update_payload api_status decision comment decided_by
                          timestamp)) "api_synced" (.vbool ok)) true := by
                  show respond_to_request_state ok request_id decision comment
                    decided_by timestamp st = _
                  have hmem : api_status ∉ TERMINAL_STATUSES := by
                    simpa using hterm2
                  simp [respond_to_request_state, hmd, hyd, hmem]
                rw [e]
                exact save_pending_atMostOne st request_id _ hInv hc
  | syncOp api_get api_submit =>
      obtain ⟨hsp, hsc⟩ := hSide
      have hfold1 := sync_fold_pending_presence api_get api_submit st.pending
        st st (fun _ => rfl) rfl
        (fun p hp rid hr => by
          rw [hsp p hp rid hr]
          exact dictGet_mem_isSome st.pending p hp)
      obtain ⟨h1p, h1c⟩ := hfold1
      have hfold2 := sync_fold_completed_presence api_get api_submit
        (st.pending.foldl (sync_one api_get api_submit true) st).completed
        (st.pending.foldl (sync_one api_get api_submit true) st)
        (st.pending.foldl (sync_one api_get api_submit true) st)
        (fun _ => rfl) rfl
        (fun p hp rid hr => by
          have hmem : p ∈ st.completed := by
            rw [← h1c]
            exact hp
          rw [hsc p hmem rid hr]
          exact dictGet_mem_isSome _ p hp)
      obtain ⟨h2c, h2p⟩ := hfold2
      intro id hid
      obtain ⟨hp1, hp2⟩ := hid
      have e : applyOp (.syncOp api_get api_submit) st =
          (st.pending.foldl (sync_one api_get api_submit true) st).completed.foldl
            (sync_one api_get api_submit false)
            (st.pending.foldl (sync_one api_get api_submit true) st) := rfl
      rw [e] at hp1 hp2
      apply hInv id
      constructor
      · rw [h2p] at hp1
        rw [h1p id] at hp1
        exact hp1
      · rw [h2c id] at hp2
        rw [show (st.pending.foldl (sync_one api_get api_submit true)
            st).completed = st.completed from h1c] at hp2
        exact hp2

/-- Witness for the amended C2: a decide mapping `rejected` onto a pending
request preserves the single-shelf property. -/
theorem C2_at_most_one_shelf_witness :
    MirrorAtMostOne (⟨[("GR-9", "status: pending")], []⟩ : MirrorState) ∧
    opSide (.decideOp true "GR-9" "rejected" "no" "boss" "t0")
      ⟨[("GR-9", "status: pending")], []⟩ ∧
    MirrorAtMostOne
      (applyOp (.decideOp true "GR-9" "rejected" "no" "boss" "t0")
        ⟨[("GR-9", "status: pending")], []⟩) := by
  have hInv : MirrorAtMostOne (⟨[("GR-9", "status: pending")], []⟩ :
      MirrorState) := by
    intro id hid
    obtain ⟨_, h2⟩ := hid
    simp [dictGet] at h2
  have hSide : opSide (.decideOp true "GR-9" "rejected" "no" "boss" "t0")
      ⟨[("GR-9", "status: pending")], []⟩ := by
    intro hc
    simp [dictGet] at hc
  exact ⟨hInv, hSide,
    C2_at_most_one_shelf (.decideOp true "GR-9" "rejected" "no" "boss" "t0")
      ⟨[("GR-9", "status: pending")], []⟩ hInv hSide⟩
